import Mathlib

/-!
Verification of the content discovery and extraction pipeline of the
customer-support browser extension (src/frontend-extention/content-script.js).

The JavaScript source is shallowly embedded: pure string/list manipulation is
translated to executable Lean functions; the browser and extension platform
APIs that the pipeline calls (the `URL` constructor, DOM queries, the
background fetch proxy) are passed in as explicit function arguments, and a
helper that the file calls but whose body is not part of the repository is
modelled from the specification, as flagged by its doc comment.
-/

/-! ## String primitives

JavaScript string operations used by the pipeline, modelled over `List Char`.
Lengths count characters (the source counts UTF-16 units; they agree on the
ASCII text the pipeline handles). -/

/-- Model of checking that `p` is a leading segment of `s` (character lists). -/
def listIsPre : List Char → List Char → Bool
  | [], _ => true
  | _ :: _, [] => false
  | a :: as, b :: bs => a == b && listIsPre as bs

/-- Model of substring search: does `sub` occur contiguously inside `s`? -/
def hasSub : List Char → List Char → Bool
  | [], sub => sub.isEmpty
  | c :: rest, sub => listIsPre sub (c :: rest) || hasSub rest sub

/-- JavaScript `s.includes(sub)`. -/
def strContains (s sub : String) : Bool :=
  hasSub s.toList sub.toList

/-- JavaScript `s.startsWith(p)`. -/
def strStartsWith (s p : String) : Bool :=
  listIsPre p.toList s.toList

/-- Whitespace recognizer for `trim` (the whitespace kinds occurring here). -/
def isWs (c : Char) : Bool :=
  c == ' ' || c == '\t' || c == '\n' || c == '\r'

/-- JavaScript `s.trim()`. -/
def jsTrim (s : String) : String :=
  String.mk (((s.toList.dropWhile isWs).reverse.dropWhile isWs).reverse)

/-- JavaScript `s.toLowerCase()` (ASCII case folding). -/
def jsToLower (s : String) : String :=
  String.mk (s.toList.map Char.toLower)

/-! ## URL Resolver & Classifier (content-script.js 307-339) -/

/-- Keyword table of `isSupportRelated` (content-script.js 310-314). -/
def supportKeywords : List String :=
  ["help", "support", "faq", "contact", "customer", "service",
   "documentation", "docs", "knowledge", "cancel", "refund",
   "billing", "payment", "terms", "policy", "privacy"]

/-- `isSupportRelated(url, text)` (content-script.js 308-317): case-insensitive
substring match of the fixed keyword set against `url + ' ' + text`. -/
def isSupportRelated (url text : String) : Bool :=
  let combined := jsToLower (url ++ " " ++ text)
  supportKeywords.any (fun keyword => strContains combined keyword)

/-- Ordered category table `this.contentTypes` (content-script.js 15-22). -/
def contentTypes : List (String × List String) :=
  [("faq", ["faq", "frequently asked", "common questions"]),
   ("policy", ["policy", "terms", "conditions", "agreement"]),
   ("contact", ["contact", "support", "help", "customer service"]),
   ("billing", ["billing", "payment", "subscription", "pricing"]),
   ("cancellation", ["cancel", "cancellation", "unsubscribe", "terminate"]),
   ("refund", ["refund", "return", "money back", "reimbursement"])]

/-- Loop body of `categorizeLink`: first category whose keyword list matches. -/
def categorizeGo (combined : String) : List (String × List String) → String
  | [] => "general"
  | (cat, keywords) :: rest =>
    if keywords.any (fun keyword => strContains combined keyword) then cat
    else categorizeGo combined rest

/-- `categorizeLink(url, text)` (content-script.js 319-329). -/
def categorizeLink (url text : String) : String :=
  categorizeGo (jsToLower (url ++ " " ++ text)) contentTypes

/-- `resolveUrl(href)` (content-script.js 331-339). `newURL href base` models
the platform call `new URL(href, base).href`; `none` models the `TypeError`
the constructor throws on malformed input. `origin` and `currentHref` model
`window.location.origin` and `window.location.href`. -/
def resolveUrl (newURL : String → String → Option String)
    (origin currentHref href : String) : Option String :=
  if strStartsWith href "http" then some href
  else if strStartsWith href "/" then some (origin ++ href)
  else newURL href currentHref

/-! ## Link Discovery (content-script.js 61-145) -/

/-- An in-page anchor element: its `href` attribute and its `textContent`. -/
structure Anchor where
  href : String
  textContent : String
deriving Repr, DecidableEq

/-- A candidate support link record. Navigation candidates carry `text` and
`location` (content-script.js 103-108); sitemap candidates carry `source`
(content-script.js 131-135); fields a producer does not set are `none`. -/
structure CandidateLink where
  url : String
  text : Option String
  source : Option String
  type : String
  location : Option String
deriving Repr, DecidableEq

/-- Loop of `findNavigationLinks` (content-script.js 92-113) over the document
anchors. The loop resolves every href before the relevance filter; a failed
resolution (JS: `resolveUrl` reaching the throwing `new URL` branch) is not
caught anywhere in the function, so it aborts the whole scan, which the
`Except.error` models. `loc` models the helper `getLinkLocation`, whose body
is not part of the repository; it only feeds the `location` metadata field. -/
def findNavLinksGo (newURL : String → String → Option String)
    (loc : Anchor → String) (origin currentHref : String) :
    List Anchor → Except String (List CandidateLink)
  | [] => .ok []
  | a :: rest =>
    let text := jsTrim (jsToLower a.textContent)
    match resolveUrl newURL origin currentHref a.href with
    | none => .error "InvalidUrl"
    | some url =>
      match findNavLinksGo newURL loc origin currentHref rest with
      | .error e => .error e
      | .ok links =>
        if isSupportRelated url text then
          .ok ({ url := url, text := some text, source := none,
                 type := categorizeLink url text, location := some (loc a) } :: links)
        else .ok links

/-- Inner loop of `checkSitemap` over the `<loc>` text nodes of one fetched
sitemap document (content-script.js 127-137). -/
def sitemapLinksOf (locs : List String) : List CandidateLink :=
  locs.foldl
    (fun acc url =>
      if isSupportRelated url "" then
        acc ++ [{ url := url, text := none, source := some "sitemap",
                  type := categorizeLink url "", location := none }]
      else acc)
    []

/-- `checkSitemap` (content-script.js 115-145). Each entry of `docs` models
one of the two sitemap URLs tried: `none` when the fetch failed or was not ok
(the per-URL `try`/`catch` skips it), `some locs` giving the text contents of
the `<loc>` nodes the XML query returns. -/
def checkSitemap (docs : List (Option (List String))) : List CandidateLink :=
  docs.foldl
    (fun acc d =>
      match d with
      | none => acc
      | some locs => acc ++ sitemapLinksOf locs)
    []

/-- Pattern list `this.supportPatterns` (content-script.js 9-13). -/
def supportPatterns : List String :=
  ["/help", "/support", "/faq", "/contact", "/customer-service",
   "/documentation", "/docs", "/knowledge-base", "/help-center",
   "/cancellation", "/refund", "/billing", "/terms", "/policy"]

/-- Modelled from the spec: `generateCommonSupportUrls` is invoked at
content-script.js line 86 but its body is not present under src. Per the spec
it produces `origin ++ pattern` for each entry of the fixed pattern list,
without verifying existence, tagged as the `generated` source; the category
field follows the data model (every Candidate Link carries a category). -/
def generateCommonSupportUrls (origin : String) : List CandidateLink :=
  supportPatterns.map
    (fun p =>
      { url := origin ++ p, text := none, source := some "generated",
        type := categorizeLink (origin ++ p) "", location := none })

/-! ## Crawl Coordinator (content-script.js 147-215)

`crawlSinglePage` delegates to the privileged background fetch and then runs
the HTML extractor; the whole round trip is modelled by one oracle
`f : String → Option String` (`some content` for a successful fetch and
extraction, `none` for the rejected promise the `catch` at lines 174-177
handles). Within a batch the three async callbacks each run their
`crawledUrls.has` check synchronously before any fetch resolves, so all
checks observe the set as it stood when the batch started; the successful
callbacks then add their URLs before the next batch begins. -/

/-- A per-link crawl record (content-script.js 164-173). -/
structure CrawlResult where
  url : String
  type : String
  content : String
  crawledAt : String
  linkText : Option String
  source : String
deriving Repr, DecidableEq

/-- One batch member (content-script.js 155-178): skip (`null`) when the URL
is already in the visited set observed at batch start; otherwise fetch, and on
failure the `catch` yields `null` — note the visited-set insertion happens
after the `await`, so it is reached only on success. -/
def crawlLink (f : String → Option String) (now : String)
    (visited : List String) (l : CandidateLink) : Option CrawlResult :=
  if visited.contains l.url then none
  else
    match f l.url with
    | some content =>
      some { url := l.url, type := l.type, content := content, crawledAt := now,
             linkText := l.text, source := l.source.getD "navigation" }
    | none => none

/-- `this.crawledUrls.add(u)`: a JS `Set` insertion (no-op on a member). -/
def addVisited (v : List String) (u : String) : List String :=
  if v.contains u then v else v ++ [u]

/-- Observable record of one batch iteration of the crawl loop. -/
structure BatchTrace where
  visitedAtStart : List String
  batch : List CandidateLink
  results : List (Option CrawlResult)
  issued : List String
  visitedAfter : List String
  delayAfter : Bool
deriving Repr, DecidableEq

/-- One iteration of the batch loop (content-script.js 152-192): `results` are
the settled batch promises, `issued` the URLs actually fetched (those that
passed the visited check against the batch-start snapshot), `visitedAfter` the
visited set after the successful members ran their `add`, and `delayAfter`
whether the 1000 ms inter-batch pause at lines 190-192 runs. -/
def mkTrace (f : String → Option String) (now : String) (visited : List String)
    (batch : List CandidateLink) (delay : Bool) : BatchTrace :=
  let results := batch.map (crawlLink f now visited)
  { visitedAtStart := visited
    batch := batch
    results := results
    issued := (batch.filter (fun l => !(visited.contains l.url))).map (fun l => l.url)
    visitedAfter :=
      (results.filterMap (fun r => r.map (fun cr => cr.url))).foldl addVisited visited
    delayAfter := delay }

/-- The batch loop `for (let i = 0; i < supportLinks.length; i += 3)`
(content-script.js 152-193): slices of three links, awaited one slice at a
time; the delay condition `i + 3 < supportLinks.length` holds exactly when
more links remain after the current slice. -/
def crawlBatches (f : String → Option String) (now : String) :
    List CandidateLink → List String → List BatchTrace
  | [], _ => []
  | [a], v => [mkTrace f now v [a] false]
  | [a, b], v => [mkTrace f now v [a, b] false]
  | a :: b :: c :: rest, v =>
    let t := mkTrace f now v [a, b, c] (!rest.isEmpty)
    t :: crawlBatches f now rest t.visitedAfter

/-- JS object update `crawledContent[url] = result`: overwrite in place if the
key exists (keeping its original position), else append. -/
def upsert (acc : List (String × CrawlResult)) (u : String) (cr : CrawlResult) :
    List (String × CrawlResult) :=
  match acc with
  | [] => [(u, cr)]
  | (k, w) :: rest => if k == u then (u, cr) :: rest else (k, w) :: upsert rest u cr

/-- The per-batch aggregation (content-script.js 183-187): push each settled
result into `crawledContent`, skipping the `null`s. -/
def foldResults (acc : List (String × CrawlResult)) (rs : List (Option CrawlResult)) :
    List (String × CrawlResult) :=
  rs.foldl
    (fun a r =>
      match r with
      | some cr => upsert a cr.url cr
      | none => a)
    acc

/-- Visited set after the final batch (the initial set when there is none). -/
def lastVisited : List BatchTrace → List String → List String
  | [], v0 => v0
  | [t], _ => t.visitedAfter
  | _ :: t :: ts, v0 => lastVisited (t :: ts) v0

/-- `crawlSupportPages(supportLinks)` (content-script.js 147-196): the
aggregated content map keyed by URL, together with the final `crawledUrls`
set. -/
def crawlSupportPages (f : String → Option String) (now : String)
    (links : List CandidateLink) (v0 : List String) :
    List (String × CrawlResult) × List String :=
  let ts := crawlBatches f now links v0
  (ts.foldl (fun acc t => foldResults acc t.results) [], lastVisited ts v0)

/-! ## Page Extractor (content-script.js 361-373) -/

/-- `extractParagraphs(doc)` (content-script.js 361-373), over the
`textContent` of the document's `p` elements in document order: trim each and
keep those longer than 20 characters. -/
def extractParagraphs (pTexts : List String) : List String :=
  pTexts.foldl
    (fun paragraphs p =>
      let text := jsTrim p
      if text.length > 20 then paragraphs ++ [text] else paragraphs)
    []

/-! ## Content Structurer & Aggregator (content-script.js 247-305)

The page projections `identifyContentSections`, `extractPolicies`,
`extractProcedures` and the per-page bucketing step
`extractActionableFromPage` are invoked here but their bodies are not part of
the repository; per the spec they are keyword/regex heuristics over one
page's extracted content, so they are modelled as oracle functions of that
content alone. The extracted-content record a successful crawl carries is
likewise kept abstract (the `content` string of `CrawlResult`), with the
field reads `content.title` and `content.contactInfo` modelled as oracle
projections. -/

/-- Summary of one crawled page (content-script.js 251-260). -/
structure ProcessedPage where
  url : String
  type : String
  title : String
  sections : String
  policies : String
  procedures : String
  contactInfo : String
  lastUpdated : String
deriving Repr, DecidableEq

/-- Oracles standing for the page-level helpers missing from src and for the
field reads on the abstract extracted content. -/
structure PageOracles where
  titleOf : String → String
  identifyContentSections : String → String
  extractPolicies : String → String
  extractProcedures : String → String
  contactInfoOf : String → String

/-- Actionable sub-record for cancellations (content-script.js 271-276). -/
structure CancellationInfo where
  steps : List String
  requirements : List String
  deadlines : List String
  contactMethods : List String
deriving Repr, DecidableEq

/-- Actionable sub-record for refunds (content-script.js 277-282). -/
structure RefundsInfo where
  policies : List String
  timeframes : List String
  procedures : List String
  exceptions : List String
deriving Repr, DecidableEq

/-- Actionable sub-record for billing (content-script.js 283-288). -/
structure BillingInfo where
  paymentMethods : List String
  cycles : List String
  issues : List String
  contacts : List String
deriving Repr, DecidableEq

/-- Actionable sub-record for contact channels (content-script.js 289-294). -/
structure ContactChannels where
  emails : List String
  phones : List String
  hours : List String
  departments : List String
deriving Repr, DecidableEq

/-- The four-domain actionable record (content-script.js 270-295). -/
structure ActionableInfo where
  cancellation : CancellationInfo
  refunds : RefundsInfo
  billing : BillingInfo
  contact : ContactChannels
deriving Repr, DecidableEq

/-- The all-empty initial actionable record (content-script.js 270-295). -/
def actionableInit : ActionableInfo :=
  ⟨⟨[], [], [], []⟩, ⟨[], [], [], []⟩, ⟨[], [], [], []⟩, ⟨[], [], [], []⟩⟩

/-- JS `structured[type] = structured[type] || []; structured[type].push(p)`:
append to the existing bucket (keeping key order) or open a new one. -/
def appendAt (structured : List (String × List ProcessedPage)) (k : String)
    (p : ProcessedPage) : List (String × List ProcessedPage) :=
  match structured with
  | [] => [(k, [p])]
  | (k2, ps) :: rest =>
    if k2 == k then (k2, ps ++ [p]) :: rest else (k2, ps) :: appendAt rest k p

/-- `processAndStructureContent(crawledContent)` (content-script.js 247-267):
group the crawled pages by category, projecting each to a summary. -/
def processAndStructureContent (po : PageOracles)
    (crawled : List (String × CrawlResult)) : List (String × List ProcessedPage) :=
  crawled.foldl
    (fun structured kv =>
      let pd := kv.2
      appendAt structured pd.type
        { url := kv.1, type := pd.type, title := po.titleOf pd.content,
          sections := po.identifyContentSections pd.content,
          policies := po.extractPolicies pd.content,
          procedures := po.extractProcedures pd.content,
          contactInfo := po.contactInfoOf pd.content,
          lastUpdated := pd.crawledAt })
    []

/-- `extractActionableInformation(structuredData)` (content-script.js
269-305): fold the bucketing step over every page of every category,
starting from the empty record. -/
def extractActionableInformation
    (step : ProcessedPage → ActionableInfo → ActionableInfo)
    (structured : List (String × List ProcessedPage)) : ActionableInfo :=
  structured.foldl (fun acc kv => kv.2.foldl (fun a p => step p a) acc) actionableInit

/-! ## Pipeline entry point (content-script.js 3-59) -/

/-- The environment one analysis run observes: the page location, the document
anchors, the platform APIs, the network, and the helpers whose bodies are not
part of the repository. `analyzeCurrentPage` is modelled from the spec: its
body is missing from src and only the absence of a usable starting context is
fatal, so `none` models its throw and `some` its page record (kept abstract).
`robotsLinks` models the result of `checkRobotsTxt` (also missing from src):
`none` when it threw (the `try` at content-script.js 78-83 then skips the
source), `some ls` for the candidate list it produced. -/
structure Env where
  origin : String
  currentHref : String
  now : String
  newURL : String → String → Option String
  getLinkLocation : Anchor → String
  anchors : List Anchor
  sitemapDocs : List (Option (List String))
  robotsLinks : Option (List CandidateLink)
  fetch : String → Option String
  analyzeCurrentPage : Option String
  pageOracles : PageOracles
  actionableStep : ProcessedPage → ActionableInfo → ActionableInfo

/-- `findNavigationLinks()` (content-script.js 92-113). -/
def findNavigationLinks (env : Env) : Except String (List CandidateLink) :=
  findNavLinksGo env.newURL env.getLinkLocation env.origin env.currentHref env.anchors

/-- `discoverSupportLinks()` (content-script.js 61-90). The code accumulates
the four producers' candidate records in `new Set()`; JS `Set` membership for
objects is reference identity and every producer allocates fresh objects, so
`add` never merges two candidates and `Array.from` returns them in insertion
order: the merge is the concatenation of the producers' outputs. Only the
sitemap and robots producers run inside `try` blocks; a throw from the
navigation scan escapes. -/
def discoverSupportLinks (env : Env) : Except String (List CandidateLink) :=
  match findNavigationLinks env with
  | .error e => .error e
  | .ok nav =>
    .ok (nav ++ checkSitemap env.sitemapDocs ++ (env.robotsLinks.getD []) ++
         generateCommonSupportUrls env.origin)

/-- Analyzer instance state (content-script.js 3-23). `maxDepth` is set to 3
and `currentDepth` to 0 by the constructor. -/
structure AnalyzerState where
  supportSections : List (String × List ProcessedPage)
  crawledUrls : List String
  maxDepth : Nat
  currentDepth : Nat

/-- The `crawlStats` record (content-script.js 48-52). -/
structure CrawlStats where
  pagesAnalyzed : Nat
  contentTypes : List String
  timestamp : String
deriving Repr, DecidableEq

/-- The success shape of `performDeepAnalysis` (content-script.js 44-53). -/
structure AnalysisOk where
  currentPage : String
  supportSections : List (String × List ProcessedPage)
  actionableInfo : ActionableInfo
  crawlStats : CrawlStats
deriving Repr, DecidableEq

/-- The result of `performDeepAnalysis`: the full record, or the
`{ error: message }` object the catch at content-script.js 55-58 returns. -/
inductive AnalysisResult where
  | ok (r : AnalysisOk)
  | error (msg : String)
deriving Repr, DecidableEq

/-- Whether an `AnalysisResult` is the full record rather than the error
object. -/
def AnalysisResult.isOkShaped : AnalysisResult → Bool
  | .ok _ => true
  | .error _ => false

/-- Whether an `Except` holds a success value. -/
def isOkExcept {ε α : Type} : Except ε α → Bool
  | .ok _ => true
  | .error _ => false

/-- `performDeepAnalysis()` (content-script.js 25-59): the five phases inside
one `try`, with any escaping throw turned into the error object. In the
embedding the only throwing phases are the current-page analysis (modelled,
session-fatal per the spec) and the navigation scan inside discovery; the
crawl catches its per-link failures and the aggregation phases are total. -/
def performDeepAnalysis (st : AnalyzerState) (env : Env) : AnalysisResult :=
  match env.analyzeCurrentPage with
  | none => .error "SessionInitError"
  | some currentPageData =>
    match discoverSupportLinks env with
    | .error e => .error e
    | .ok supportLinks =>
      let crawled := crawlSupportPages env.fetch env.now supportLinks st.crawledUrls
      let structuredData := processAndStructureContent env.pageOracles crawled.1
      let actionableData := extractActionableInformation env.actionableStep structuredData
      .ok { currentPage := currentPageData
            supportSections := structuredData
            actionableInfo := actionableData
            crawlStats :=
              { pagesAnalyzed := crawled.2.length
                contentTypes := structuredData.map Prod.fst
                timestamp := env.now } }

/-! ## Concrete environments used to evaluate the pipeline -/

/-- Inert page oracles for concrete evaluations (their outputs are irrelevant
to the properties they appear in). -/
def po0 : PageOracles :=
  ⟨fun _ => "", fun _ => "", fun _ => "", fun _ => "", fun _ => ""⟩

/-- The candidate list discovery produced, empty when the scan aborted. -/
def discoveredOf (env : Env) : List CandidateLink :=
  match discoverSupportLinks env with
  | .ok ls => ls
  | .error _ => []

/-- Environment for the dedup scenario: the navigation scan and the sitemap
both yield `https://example.com/refund-policy`. -/
def envC1 : Env :=
  { origin := "https://example.com", currentHref := "https://example.com/",
    now := "t", newURL := fun _ _ => none, getLinkLocation := fun _ => "nav",
    anchors := [⟨"/refund-policy", "Refund"⟩],
    sitemapDocs := [some ["https://example.com/refund-policy"], none],
    robotsLinks := none, fetch := fun _ => none,
    analyzeCurrentPage := some "page", pageOracles := po0,
    actionableStep := fun _ a => a }

/-- Environment for the categorization scenario: a nav anchor `/faq` with
text `FAQ`, and a sitemap containing the refund-policy location. -/
def envC3 : Env :=
  { origin := "https://example.com", currentHref := "https://example.com/",
    now := "t", newURL := fun _ _ => none, getLinkLocation := fun _ => "body",
    anchors := [⟨"/faq", "FAQ"⟩],
    sitemapDocs := [some ["https://example.com/refund-policy"], none],
    robotsLinks := none, fetch := fun _ => none,
    analyzeCurrentPage := some "page", pageOracles := po0,
    actionableStep := fun _ a => a }

/-! ## C1 -/

/-- C1: the claim states that the merged discovery output is deduplicated by
absolute URL, so that two sources producing the same URL yield exactly one
Candidate Link. Evaluating the code at such an input refutes this: with the
navigation scan and the sitemap both producing
`https://example.com/refund-policy`, the merged sequence contains two
Candidate Links with that URL, because the JS `Set` collecting the candidate
objects deduplicates by reference identity and every candidate is freshly
allocated, so the URL-level deduplication the `new Set()` is there for never
happens. -/
theorem discover_merge_keeps_duplicate_urls :
    isOkExcept (discoverSupportLinks envC1) = true ∧
    ((discoveredOf envC1).filter
        (fun l => l.url == "https://example.com/refund-policy")).length = 2 := by
  decide

/-! ## C3 -/

/-- C3 counterexample: the sitemap `<loc>https://example.com/refund-policy</loc>`
does yield exactly one discovered Candidate Link for that URL, but its
category is not `refund` as the claim states: `categorizeLink` scans the
category table in declaration order and `policy` (keyword `policy`) matches
`refund-policy` before `refund` is ever tried. -/
theorem sitemap_refund_policy_categorized_policy_cex :
    ((discoveredOf envC3).filter
        (fun l => l.url == "https://example.com/refund-policy" &&
                  l.type == "refund")) = [] ∧
    ((discoveredOf envC3).filter
        (fun l => l.url == "https://example.com/refund-policy")).length = 1 := by
  decide

/-- C3 (amended): given a page with a nav anchor `href="/faq"` and text
`FAQ`, categorization returns `faq` (both directly and for the candidate the
navigation scan emits); and given a sitemap containing
`<loc>https://example.com/refund-policy</loc>`, discovery includes a
Candidate Link for that URL with source `sitemap` and category `policy` (not
`refund`: the `policy` category matches first in table order). -/
theorem categorize_faq_and_sitemap_scenario :
    categorizeLink "https://example.com/faq" "faq" = "faq" ∧
    findNavigationLinks envC3 =
      .ok [{ url := "https://example.com/faq", text := some "faq", source := none,
             type := "faq", location := some "body" }] ∧
    ({ url := "https://example.com/refund-policy", text := none,
       source := some "sitemap", type := "policy",
       location := none } : CandidateLink) ∈ discoveredOf envC3 := by
  refine ⟨by decide, rfl, by decide⟩

/-! ## C7 -/

/-- Unfolding the accumulator of `extractParagraphs`. -/
theorem extractParagraphs_go (ps : List String) (acc : List String) :
    ps.foldl
      (fun paragraphs p =>
        let text := jsTrim p
        if text.length > 20 then paragraphs ++ [text] else paragraphs) acc =
    acc ++ (ps.map jsTrim).filter (fun t => t.length > 20) := by
  induction ps generalizing acc with
  | nil => simp
  | cons p ps ih =>
    simp only [List.foldl_cons, List.map_cons, List.filter_cons]
    by_cases h : (jsTrim p).length > 20
    · simp [h, ih, List.append_assoc]
    · simp [h, ih]

/-- C7: extraction returns exactly the trimmed texts of the document's
paragraph elements whose trimmed length exceeds 20 characters, in document
order; in particular, when no paragraph trims to more than 20 characters it
returns the empty sequence (and, being a total function, never an error). -/
theorem extractParagraphs_trim_filter :
    (∀ pTexts : List String,
        extractParagraphs pTexts = (pTexts.map jsTrim).filter (fun t => t.length > 20)) ∧
    (∀ pTexts : List String, (∀ p ∈ pTexts, (jsTrim p).length ≤ 20) →
        extractParagraphs pTexts = []) := by
  have hmain : ∀ pTexts : List String,
      extractParagraphs pTexts = (pTexts.map jsTrim).filter (fun t => t.length > 20) := by
    intro ps
    simpa [extractParagraphs] using extractParagraphs_go ps []
  refine ⟨hmain, fun ps h => ?_⟩
  rw [hmain]
  rw [List.filter_eq_nil_iff]
  intro t ht
  rcases List.mem_map.mp ht with ⟨p, hp, rfl⟩
  simpa using Nat.not_lt.mpr (h p hp)

/-- C7 witness: a document whose paragraphs all trim to at most 20 characters
yields the empty paragraph sequence. -/
theorem extractParagraphs_trim_filter_witness :
    (∀ p ∈ ["short", "   spaced out   ", ""], (jsTrim p).length ≤ 20) ∧
    extractParagraphs ["short", "   spaced out   ", ""] = [] :=
  ⟨by decide, extractParagraphs_trim_filter.2 ["short", "   spaced out   ", ""] (by decide)⟩

/-! ## C9 -/

/-- C9: `maxDepth` has no influence on behaviour: two analyzer states
differing only in `maxDepth` produce identical analysis results on every
environment — the field is never consulted by discovery, crawling, or any
other phase of `performDeepAnalysis`. -/
theorem performDeepAnalysis_independent_of_maxDepth
    (st : AnalyzerState) (env : Env) (d1 d2 : Nat) :
    performDeepAnalysis { st with maxDepth := d1 } env =
      performDeepAnalysis { st with maxDepth := d2 } env := by
  cases st
  rfl

/-! ## C10 -/

/-- C10: URL resolution treats every href whose string starts with the four
characters `http` as absolute and returns it unchanged, with no further
validation; in particular the non-URL string `httpfoo/bar` is passed through
verbatim for every environment, never resolved against the current page nor
rejected. -/
theorem resolveUrl_http_passthrough_unvalidated :
    (∀ (newURL : String → String → Option String) (origin currentHref href : String),
        strStartsWith href "http" = true →
        resolveUrl newURL origin currentHref href = some href) ∧
    (∀ (newURL : String → String → Option String) (origin currentHref : String),
        resolveUrl newURL origin currentHref "httpfoo/bar" = some "httpfoo/bar") := by
  constructor
  · intro newURL origin currentHref href h
    simp [resolveUrl, h]
  · intro newURL origin currentHref
    have h : strStartsWith "httpfoo/bar" "http" = true := by decide
    simp [resolveUrl, h]

/-- C10 witness: the passthrough branch applied to the non-URL string
`httpfoo/bar`. -/
theorem resolveUrl_http_passthrough_unvalidated_witness :
    strStartsWith "httpfoo/bar" "http" = true ∧
    resolveUrl (fun _ _ => none) "https://example.com" "https://example.com/"
      "httpfoo/bar" = some "httpfoo/bar" :=
  ⟨by decide,
   resolveUrl_http_passthrough_unvalidated.1 (fun _ _ => none) "https://example.com"
     "https://example.com/" "httpfoo/bar" (by decide)⟩

/-! ## C6 -/

/-- Helper: if some anchor's href fails to resolve, the navigation scan as a
whole returns an error — the loop body does not catch the throw. -/
theorem findNavGoErrorOfBad (newURL : String → String → Option String)
    (loc : Anchor → String) (origin currentHref : String) :
    ∀ (anchors : List Anchor) (a : Anchor), a ∈ anchors →
      resolveUrl newURL origin currentHref a.href = none →
      ∃ e, findNavLinksGo newURL loc origin currentHref anchors = .error e := by
  intro anchors
  induction anchors with
  | nil => intro a ha; simp at ha
  | cons b rest ih =>
    intro a ha hbad
    cases hb : resolveUrl newURL origin currentHref b.href with
    | none => exact ⟨"InvalidUrl", by simp [findNavLinksGo, hb]⟩
    | some u =>
      have harest : a ∈ rest := by
        rcases List.mem_cons.mp ha with rfl | h
        · rw [hbad] at hb; exact absurd hb (by simp)
        · exact h
      rcases ih a harest hbad with ⟨e, he⟩
      exact ⟨e, by simp [findNavLinksGo, hb, he]⟩

/-- Realizable URL-constructor oracle for the malformed-href environments.
The href `ftp://example.com:99999999` carries its own scheme (so the base is
ignored) and a port exceeding 65535, which the WHATWG port parser treats as
failure: `new URL` throws a `TypeError` on it in a real browser, modelled by
`none`. It also starts with neither `http` nor `/`, so `resolveUrl` really
reaches the constructor branch on it. Any other href consulted here is
joined to the base the way the parser joins a plain relative path. -/
def newURLMalformedPort : String → String → Option String := fun href base =>
  if href == "ftp://example.com:99999999" then none else some (base ++ href)

/-- Environment with a genuinely malformed href (`ftp://example.com:99999999`,
rejected by the URL constructor for its out-of-range port) followed by a
perfectly good support anchor. -/
def envC6 : Env :=
  { origin := "https://example.com", currentHref := "https://example.com/",
    now := "t", newURL := newURLMalformedPort, getLinkLocation := fun _ => "nav",
    anchors := [⟨"ftp://example.com:99999999", "help"⟩, ⟨"/support", "Support"⟩],
    sitemapDocs := [none, none], robotsLinks := none, fetch := fun _ => none,
    analyzeCurrentPage := some "page", pageOracles := po0,
    actionableStep := fun _ a => a }

/-- C6 counterexample: the claim states that on malformed input the caller
treats the failure as non-fatal, skipping that link and continuing. It does
not: with a malformed href followed by a good support anchor the navigation
scan returns the error instead of the good link — while the same scan run on
just the good anchor produces its candidate, showing what skip-and-continue
would have kept. -/
theorem malformed_href_aborts_nav_scan_cex :
    findNavigationLinks envC6 = .error "InvalidUrl" ∧
    findNavLinksGo envC6.newURL envC6.getLinkLocation envC6.origin envC6.currentHref
        [⟨"/support", "Support"⟩] =
      .ok [{ url := "https://example.com/support", text := some "support",
             source := none, type := "contact", location := some "nav" }] := by
  exact ⟨rfl, rfl⟩

/-- C6 (amended): `resolve` returns an absolute (http-leading) href unchanged,
returns `origin ++ href` for a root-relative href, and resolves any other href
against the current page URL (where the platform URL constructor fails, i.e.
malformed input, the resolution fails); but the navigation-scan caller does
not treat that failure as non-fatal: if any anchor's href fails to resolve,
`findNavigationLinks` aborts with an error instead of skipping the link. -/
theorem resolveUrl_branches_and_caller_aborts :
    (∀ (newURL : String → String → Option String) (origin currentHref href : String),
        strStartsWith href "http" = true →
        resolveUrl newURL origin currentHref href = some href) ∧
    (∀ (newURL : String → String → Option String) (origin currentHref href : String),
        strStartsWith href "http" = false → strStartsWith href "/" = true →
        resolveUrl newURL origin currentHref href = some (origin ++ href)) ∧
    (∀ (newURL : String → String → Option String) (origin currentHref href : String),
        strStartsWith href "http" = false → strStartsWith href "/" = false →
        resolveUrl newURL origin currentHref href = newURL href currentHref) ∧
    (∀ env : Env,
        (∃ a ∈ env.anchors,
            resolveUrl env.newURL env.origin env.currentHref a.href = none) →
        ∃ e, findNavigationLinks env = .error e) := by
  refine ⟨?_, ?_, ?_, ?_⟩
  · intro newURL origin currentHref href h
    simp [resolveUrl, h]
  · intro newURL origin currentHref href h1 h2
    simp [resolveUrl, h1, h2]
  · intro newURL origin currentHref href h1 h2
    simp [resolveUrl, h1, h2]
  · intro env ⟨a, ha, hbad⟩
    exact findNavGoErrorOfBad env.newURL env.getLinkLocation env.origin
      env.currentHref env.anchors a ha hbad

/-- C6 witness: the root-relative branch at `/faq`, and the abort behaviour at
the concrete malformed-href environment. -/
theorem resolveUrl_branches_and_caller_aborts_witness :
    (strStartsWith "/faq" "http" = false ∧ strStartsWith "/faq" "/" = true ∧
      resolveUrl (fun _ _ => none) "https://example.com" "https://example.com/" "/faq" =
        some ("https://example.com" ++ "/faq")) ∧
    (∃ e, findNavigationLinks envC6 = .error e) :=
  ⟨⟨by decide, by decide,
    resolveUrl_branches_and_caller_aborts.2.1 (fun _ _ => none) "https://example.com"
      "https://example.com/" "/faq" (by decide) (by decide)⟩,
   resolveUrl_branches_and_caller_aborts.2.2.2 envC6
     ⟨⟨"ftp://example.com:99999999", "help"⟩, by decide, by decide⟩⟩

/-! ## C8 -/

/-- Environment whose sitemap and fetch work fine but whose page contains one
anchor with a genuinely malformed href (the URL constructor throws on its
out-of-range port). -/
def envC8 : Env :=
  { origin := "https://example.com", currentHref := "https://example.com/",
    now := "t", newURL := newURLMalformedPort, getLinkLocation := fun _ => "body",
    anchors := [⟨"ftp://example.com:99999999", "x"⟩],
    sitemapDocs := [some ["https://example.com/help"], none],
    robotsLinks := some [], fetch := fun _ => some "content",
    analyzeCurrentPage := some "page", pageOracles := po0,
    actionableStep := fun _ a => a }

/-- C8 counterexample: the claim states that per-link and per-source errors
never cause the error-shaped result. But a single malformed anchor href — a
per-link `InvalidUrl` during navigation discovery — escapes to the top-level
catch and the entry point returns the error object, even though the current
page analyzed fine and every other source and fetch would have succeeded. -/
theorem per_link_invalid_url_yields_error_shape_cex :
    performDeepAnalysis ⟨[], [], 3, 0⟩ envC8 = .error "InvalidUrl" := rfl

/-- C8 (amended): the entry point never throws — it always returns either the
full result record or the error object — and the result is the full record
exactly when the current-page analysis succeeds and every navigation href
resolves; crawl per-link failures and sitemap/robots source failures never
produce the error shape, but a malformed navigation href (a per-link error)
does. -/
theorem performDeepAnalysis_ok_iff (st : AnalyzerState) (env : Env) :
    (performDeepAnalysis st env).isOkShaped =
      (env.analyzeCurrentPage.isSome && isOkExcept (findNavigationLinks env)) := by
  cases hcp : env.analyzeCurrentPage with
  | none => simp [performDeepAnalysis, hcp, AnalysisResult.isOkShaped]
  | some p =>
    cases hn : findNavigationLinks env with
    | error e =>
      simp [performDeepAnalysis, discoverSupportLinks, hcp, hn,
            AnalysisResult.isOkShaped, isOkExcept]
    | ok nav =>
      simp [performDeepAnalysis, discoverSupportLinks, hcp, hn,
            AnalysisResult.isOkShaped, isOkExcept]

/-! ## Crawl coordinator lemmas (for C2, C4, C5) -/

/-- A candidate link carrying only a URL (as the generated producer would). -/
def mkCand (u : String) : CandidateLink :=
  { url := u, text := none, source := none, type := "general", location := none }

theorem mkTrace_batch (f : String → Option String) (now : String)
    (v : List String) (batch : List CandidateLink) (delay : Bool) :
    (mkTrace f now v batch delay).batch = batch := rfl

theorem mkTrace_visitedAtStart (f : String → Option String) (now : String)
    (v : List String) (batch : List CandidateLink) (delay : Bool) :
    (mkTrace f now v batch delay).visitedAtStart = v := rfl

theorem mkTrace_delayAfter (f : String → Option String) (now : String)
    (v : List String) (batch : List CandidateLink) (delay : Bool) :
    (mkTrace f now v batch delay).delayAfter = delay := rfl

/-- A URL issued in a batch passed the visited check against the batch-start
snapshot, and at most one fetch per batch member is issued. -/
theorem mkTraceIssuedSpec (f : String → Option String) (now : String)
    (v : List String) (batch : List CandidateLink) (delay : Bool) :
    (mkTrace f now v batch delay).issued.length ≤ batch.length ∧
    ∀ u ∈ (mkTrace f now v batch delay).issued, u ∉ v := by
  constructor
  · simpa [mkTrace] using List.length_filter_le
      (fun l : CandidateLink => !(v.contains l.url)) batch
  · intro u hu
    simp only [mkTrace, List.mem_map, List.mem_filter] at hu
    rcases hu with ⟨l, ⟨hl, hnc⟩, rfl⟩
    simp at hnc
    exact hnc

/-- Membership after a JS `Set.add`. -/
theorem addVisitedMem (v : List String) (x u : String) (h : u ∈ addVisited v x) :
    u ∈ v ∨ u = x := by
  by_cases hc : x ∈ v
  · simp [addVisited, hc] at h
    exact Or.inl h
  · simp [addVisited, hc] at h
    exact h

/-- Membership after a sequence of `Set.add`s. -/
theorem foldlAddVisitedMem (xs : List String) :
    ∀ (v : List String) (u : String), u ∈ xs.foldl addVisited v → u ∈ v ∨ u ∈ xs := by
  induction xs with
  | nil =>
    intro v u h
    simp at h
    exact Or.inl h
  | cons x xs ih =>
    intro v u h
    rcases ih (addVisited v x) u h with hv | hxs
    · rcases addVisitedMem v x u hv with h1 | h1
      · exact Or.inl h1
      · exact Or.inr (by simp [h1])
    · exact Or.inr (List.mem_cons_of_mem _ hxs)

/-- A non-null batch-member result comes from a successful fetch of its URL. -/
theorem crawlLinkSome (f : String → Option String) (now : String)
    (v : List String) (l : CandidateLink) (cr : CrawlResult)
    (h : crawlLink f now v l = some cr) :
    cr.url = l.url ∧ f cr.url = some cr.content := by
  by_cases hc : l.url ∈ v
  · simp [crawlLink, hc] at h
  · cases hf : f l.url with
    | none => simp [crawlLink, hc, hf] at h
    | some content =>
      simp [crawlLink, hc, hf] at h
      subst h
      exact ⟨rfl, hf⟩

/-- Every URL a batch adds to the visited set was fetched successfully. -/
theorem mkTraceVisitedAfterMem (f : String → Option String) (now : String)
    (v : List String) (batch : List CandidateLink) (delay : Bool) (u : String)
    (h : u ∈ (mkTrace f now v batch delay).visitedAfter) :
    u ∈ v ∨ (f u).isSome = true := by
  simp only [mkTrace] at h
  rcases foldlAddVisitedMem _ v u h with hv | hs
  · exact Or.inl hv
  · rcases List.mem_filterMap.mp hs with ⟨r, hr, hru⟩
    cases r with
    | none => simp at hru
    | some cr =>
      simp at hru
      rcases List.mem_map.mp hr with ⟨l, _, hcl⟩
      rcases crawlLinkSome f now v l cr hcl with ⟨_, hf⟩
      subst hru
      exact Or.inr (by simp [hf])

/-- Every non-null result a batch settles records a successful fetch. -/
theorem mkTraceResultsSome (f : String → Option String) (now : String)
    (v : List String) (batch : List CandidateLink) (delay : Bool) :
    ∀ r ∈ (mkTrace f now v batch delay).results, ∀ cr : CrawlResult, r = some cr →
      f cr.url = some cr.content := by
  intro r hr cr hcr
  simp only [mkTrace] at hr
  rcases List.mem_map.mp hr with ⟨l, _, hlr⟩
  subst hcr
  exact (crawlLinkSome f now v l cr hlr).2

/-- Per-batch concurrency and no-refetch invariant, over the whole loop. -/
theorem crawlBatchesIssuedSpec (f : String → Option String) (now : String) :
    ∀ (links : List CandidateLink) (v : List String),
      ∀ t ∈ crawlBatches f now links v,
        t.issued.length ≤ 3 ∧ ∀ u ∈ t.issued, u ∉ t.visitedAtStart
  | [], v => by simp [crawlBatches]
  | [a], v => by
    intro t ht
    simp [crawlBatches] at ht
    subst ht
    have h := mkTraceIssuedSpec f now v [a] false
    exact ⟨h.1.trans (by simp), h.2⟩
  | [a, b], v => by
    intro t ht
    simp [crawlBatches] at ht
    subst ht
    have h := mkTraceIssuedSpec f now v [a, b] false
    exact ⟨h.1.trans (by simp), h.2⟩
  | a :: b :: c :: rest, v => by
    intro t ht
    simp only [crawlBatches, List.mem_cons] at ht
    rcases ht with rfl | ht
    · have h := mkTraceIssuedSpec f now v [a, b, c] (!rest.isEmpty)
      exact ⟨h.1.trans (by simp), h.2⟩
    · exact crawlBatchesIssuedSpec f now rest _ t ht

/-- Non-null results across the whole loop record successful fetches. -/
theorem crawlBatchesResultsSpec (f : String → Option String) (now : String) :
    ∀ (links : List CandidateLink) (v : List String),
      ∀ t ∈ crawlBatches f now links v, ∀ r ∈ t.results, ∀ cr : CrawlResult,
        r = some cr → f cr.url = some cr.content
  | [], v => by simp [crawlBatches]
  | [a], v => by
    intro t ht
    simp [crawlBatches] at ht
    subst ht
    exact mkTraceResultsSome f now v [a] false
  | [a, b], v => by
    intro t ht
    simp [crawlBatches] at ht
    subst ht
    exact mkTraceResultsSome f now v [a, b] false
  | a :: b :: c :: rest, v => by
    intro t ht
    simp only [crawlBatches, List.mem_cons] at ht
    rcases ht with rfl | ht
    · exact mkTraceResultsSome f now v [a, b, c] (!rest.isEmpty)
    · exact crawlBatchesResultsSpec f now rest _ t ht

theorem lastVisitedCons (t : BatchTrace) (ts : List BatchTrace) (h : ts ≠ [])
    (v : List String) : lastVisited (t :: ts) v = lastVisited ts v := by
  cases ts with
  | nil => exact absurd rfl h
  | cons t2 ts2 => rfl

theorem lastVisitedIrrel (ts : List BatchTrace) (h : ts ≠ []) (v1 v2 : List String) :
    lastVisited ts v1 = lastVisited ts v2 := by
  induction ts with
  | nil => exact absurd rfl h
  | cons t ts ih =>
    cases ts with
    | nil => rfl
    | cons t2 ts2 =>
      simp only [lastVisited]
      exact ih (by simp)

theorem crawlBatchesNe (f : String → Option String) (now : String)
    (x : CandidateLink) (xs : List CandidateLink) (v : List String) :
    crawlBatches f now (x :: xs) v ≠ [] := by
  cases xs with
  | nil => simp [crawlBatches]
  | cons b bs =>
    cases bs with
    | nil => simp [crawlBatches]
    | cons c cs => simp [crawlBatches]

/-- Every URL in the final visited set was in the initial set or fetched
successfully at some point: failed links are never marked visited. -/
theorem crawlBatchesLastVisitedSpec (f : String → Option String) (now : String) :
    ∀ (links : List CandidateLink) (v : List String) (u : String),
      u ∈ lastVisited (crawlBatches f now links v) v → u ∈ v ∨ (f u).isSome = true
  | [], v, u => by
    intro h
    simp [crawlBatches, lastVisited] at h
    exact Or.inl h
  | [a], v, u => by
    intro h
    simp only [crawlBatches, lastVisited] at h
    exact mkTraceVisitedAfterMem f now v [a] false u h
  | [a, b], v, u => by
    intro h
    simp only [crawlBatches, lastVisited] at h
    exact mkTraceVisitedAfterMem f now v [a, b] false u h
  | [a, b, c], v, u => by
    intro h
    simp only [crawlBatches, lastVisited] at h
    exact mkTraceVisitedAfterMem f now v [a, b, c] _ u h
  | a :: b :: c :: x :: xs, v, u => by
    intro h
    simp only [crawlBatches] at h
    rw [lastVisitedCons _ _ (crawlBatchesNe f now x xs _) v] at h
    rw [lastVisitedIrrel _ (crawlBatchesNe f now x xs _) v
      ((mkTrace f now v [a, b, c] (!(x :: xs).isEmpty)).visitedAfter)] at h
    rcases crawlBatchesLastVisitedSpec f now (x :: xs) _ u h with h2 | h2
    · exact mkTraceVisitedAfterMem f now v [a, b, c] _ u h2
    · exact Or.inr h2

/-- Unfolding membership in an upsert. -/
theorem upsertMem (acc : List (String × CrawlResult)) (u : String) (cr : CrawlResult)
    (p : String × CrawlResult) (h : p ∈ upsert acc u cr) : p = (u, cr) ∨ p ∈ acc := by
  induction acc with
  | nil => simpa [upsert] using h
  | cons kv rest ih =>
    obtain ⟨k, w⟩ := kv
    by_cases hk : k == u
    · simp [upsert, hk] at h
      rcases h with h | h
      · left
        have : k = u := by simpa using hk
        simp [h, this]
      · exact Or.inr (List.mem_cons_of_mem _ h)
    · simp only [upsert, hk, Bool.false_eq_true, if_false, List.mem_cons] at h
      rcases h with h | h
      · exact Or.inr (by simp [h])
      · rcases ih h with h1 | h1
        · exact Or.inl h1
        · exact Or.inr (List.mem_cons_of_mem _ h1)

/-- Every aggregated entry comes from a non-null result keyed by its URL. -/
theorem foldResultsMem (rs : List (Option CrawlResult)) :
    ∀ (acc : List (String × CrawlResult)) (p : String × CrawlResult),
      p ∈ foldResults acc rs →
      p ∈ acc ∨ ∃ cr : CrawlResult, some cr ∈ rs ∧ p = (cr.url, cr) := by
  induction rs with
  | nil =>
    intro acc p h
    exact Or.inl (by simpa [foldResults] using h)
  | cons r rs ih =>
    intro acc p h
    cases r with
    | none =>
      have h2 : p ∈ foldResults acc rs := by simpa [foldResults] using h
      rcases ih _ p h2 with hacc | ⟨cr, hcr, hp⟩
      · exact Or.inl hacc
      · exact Or.inr ⟨cr, List.mem_cons_of_mem _ hcr, hp⟩
    | some cr0 =>
      have h2 : p ∈ foldResults (upsert acc cr0.url cr0) rs := by
        simpa [foldResults] using h
      rcases ih _ p h2 with hacc | ⟨cr, hcr, hp⟩
      · rcases upsertMem acc cr0.url cr0 p hacc with hpe | hpa
        · exact Or.inr ⟨cr0, by simp, hpe⟩
        · exact Or.inl hpa
      · exact Or.inr ⟨cr, List.mem_cons_of_mem _ hcr, hp⟩

/-- Every entry of the aggregated content map comes from some batch's
non-null result. -/
theorem dictFoldMem (ts : List BatchTrace) :
    ∀ (acc : List (String × CrawlResult)) (p : String × CrawlResult),
      p ∈ ts.foldl (fun acc t => foldResults acc t.results) acc →
      p ∈ acc ∨ ∃ t ∈ ts, ∃ cr : CrawlResult, some cr ∈ t.results ∧ p = (cr.url, cr) := by
  induction ts with
  | nil =>
    intro acc p h
    exact Or.inl (by simpa using h)
  | cons t ts ih =>
    intro acc p h
    rcases ih _ p (by simpa using h) with hacc | ⟨t2, ht2, cr, hcr, hp⟩
    · rcases foldResultsMem t.results acc p hacc with h1 | ⟨cr, hcr, hp⟩
      · exact Or.inl h1
      · exact Or.inr ⟨t, by simp, cr, hcr, hp⟩
    · exact Or.inr ⟨t2, by simp [ht2], cr, hcr, hp⟩

/-! ## C2 -/

/-- C2 counterexample: a single link whose fetch fails. The failed batch
member settles as `null`, the aggregated content is empty (the `null` is
filtered out), but — contrary to the claim — the link's URL is not added to
the visited set: `crawledUrls.add` sits after the `await`, so the `catch`
path never reaches it and the session would retry this URL. -/
theorem crawl_failed_link_not_marked_visited_cex :
    ((crawlBatches (fun _ => none) "t" [mkCand "https://example.com/help"] []).map
        (fun t => t.results)) = [[none]] ∧
    (crawlSupportPages (fun _ => none) "t" [mkCand "https://example.com/help"] []).1 = [] ∧
    ((crawlSupportPages (fun _ => none) "t" [mkCand "https://example.com/help"] []).2.contains
        "https://example.com/help") = false := by
  decide

/-- C2 (amended): a link whose fetch fails yields a `null` result, and nulls
never reach the aggregated content (every aggregated entry records a
successful fetch of its key); but the failed link's URL is NOT added to the
visited set — the final visited set only ever contains the initial members
and URLs whose fetch succeeded, so a failed link may be retried within the
session. -/
theorem crawl_failure_null_filtered_not_visited :
    (∀ (f : String → Option String) (now : String) (v : List String)
        (l : CandidateLink), f l.url = none → crawlLink f now v l = none) ∧
    (∀ (f : String → Option String) (now : String) (links : List CandidateLink)
        (v0 : List String) (p : String × CrawlResult),
        p ∈ (crawlSupportPages f now links v0).1 → f p.1 = some p.2.content) ∧
    (∀ (f : String → Option String) (now : String) (links : List CandidateLink)
        (v0 : List String) (u : String),
        u ∈ (crawlSupportPages f now links v0).2 → u ∈ v0 ∨ (f u).isSome = true) := by
  refine ⟨?_, ?_, ?_⟩
  · intro f now v l h
    simp [crawlLink, h]
  · intro f now links v0 p hp
    rcases dictFoldMem (crawlBatches f now links v0) [] p hp with h0 | ⟨t, ht, cr, hcr, hp2⟩
    · simp at h0
    · have hf := crawlBatchesResultsSpec f now links v0 t ht (some cr) hcr cr rfl
      rw [hp2]
      exact hf
  · intro f now links v0 u hu
    exact crawlBatchesLastVisitedSpec f now links v0 u hu

/-- C2 witness: the null-result clause evaluated at a failing fetch. -/
theorem crawl_failure_null_filtered_not_visited_witness :
    ((fun _ => none) : String → Option String) (mkCand "https://example.com/refund").url =
      none ∧
    crawlLink (fun _ => none) "t" [] (mkCand "https://example.com/refund") = none :=
  ⟨rfl,
   crawl_failure_null_filtered_not_visited.1 (fun _ => none) "t" []
     (mkCand "https://example.com/refund") rfl⟩

/-! ## C4 -/

/-- C4: throughout any crawl, each awaited batch issues at most 3 fetches
(and batches are strictly sequential, so at most 3 are ever in flight), and
every fetch issued is for a URL not in the visited set as observed at the
moment of issue — the batch-start snapshot against which all of the batch's
visited checks run — including when the same URL occurs repeatedly in the
discovered sequence. -/
theorem crawl_concurrency_bound_and_no_refetch (f : String → Option String)
    (now : String) (links : List CandidateLink) (v : List String)
    (t : BatchTrace) (ht : t ∈ crawlBatches f now links v) :
    t.issued.length ≤ 3 ∧ ∀ u ∈ t.issued, u ∉ t.visitedAtStart :=
  crawlBatchesIssuedSpec f now links v t ht

/-- C4 witness: a batch containing the same URL twice, evaluated concretely. -/
theorem crawl_concurrency_bound_and_no_refetch_witness :
    mkTrace (fun _ => some "html") "t" []
        [mkCand "https://example.com/help", mkCand "https://example.com/help"] false ∈
      crawlBatches (fun _ => some "html") "t"
        [mkCand "https://example.com/help", mkCand "https://example.com/help"] [] ∧
    ((mkTrace (fun _ => some "html") "t" []
        [mkCand "https://example.com/help", mkCand "https://example.com/help"]
        false).issued.length ≤ 3 ∧
      ∀ u ∈ (mkTrace (fun _ => some "html") "t" []
        [mkCand "https://example.com/help", mkCand "https://example.com/help"]
        false).issued,
        u ∉ (mkTrace (fun _ => some "html") "t" []
          [mkCand "https://example.com/help", mkCand "https://example.com/help"]
          false).visitedAtStart) :=
  ⟨by decide,
   crawl_concurrency_bound_and_no_refetch (fun _ => some "html") "t"
     [mkCand "https://example.com/help", mkCand "https://example.com/help"] []
     (mkTrace (fun _ => some "html") "t" []
       [mkCand "https://example.com/help", mkCand "https://example.com/help"] false)
     (by decide)⟩

/-! ## C5 -/

/-- The number of batches is the number of 3-slices of the link sequence. -/
theorem crawlBatchesLength (f : String → Option String) (now : String) :
    ∀ (links : List CandidateLink) (v : List String),
      (crawlBatches f now links v).length = (links.length + 2) / 3
  | [], _ => by simp [crawlBatches]
  | [a], v => by simp [crawlBatches]
  | [a, b], v => by simp [crawlBatches]
  | a :: b :: c :: rest, v => by
    have ih := crawlBatchesLength f now rest
      ((mkTrace f now v [a, b, c] (!rest.isEmpty)).visitedAfter)
    simp [crawlBatches, ih]
    omega

/-- The batches are consecutive slices: concatenating them restores the
discovered sequence. -/
theorem crawlBatchesJoin (f : String → Option String) (now : String) :
    ∀ (links : List CandidateLink) (v : List String),
      ((crawlBatches f now links v).map (fun t => t.batch)).flatten = links
  | [], _ => by simp [crawlBatches]
  | [a], v => by simp [crawlBatches, mkTrace_batch]
  | [a, b], v => by simp [crawlBatches, mkTrace_batch]
  | a :: b :: c :: rest, v => by
    have ih := crawlBatchesJoin f now rest
      ((mkTrace f now v [a, b, c] (!rest.isEmpty)).visitedAfter)
    simp [crawlBatches, mkTrace_batch, ih]

/-- Batch sizes: never more than 3, and every batch followed by a delay is a
full slice of 3 (only the final batch can be smaller). -/
theorem crawlBatchesFullBatch (f : String → Option String) (now : String) :
    ∀ (links : List CandidateLink) (v : List String),
      ∀ t ∈ crawlBatches f now links v,
        t.batch.length ≤ 3 ∧ (t.delayAfter = true → t.batch.length = 3)
  | [], v => by simp [crawlBatches]
  | [a], v => by
    intro t ht
    simp [crawlBatches] at ht
    subst ht
    exact ⟨by simp [mkTrace_batch], fun hd => by simp [mkTrace_delayAfter] at hd⟩
  | [a, b], v => by
    intro t ht
    simp [crawlBatches] at ht
    subst ht
    exact ⟨by simp [mkTrace_batch], fun hd => by simp [mkTrace_delayAfter] at hd⟩
  | a :: b :: c :: rest, v => by
    intro t ht
    simp only [crawlBatches, List.mem_cons] at ht
    rcases ht with rfl | ht
    · exact ⟨by simp [mkTrace_batch], fun _ => by simp [mkTrace_batch]⟩
    · exact crawlBatchesFullBatch f now rest _ t ht

/-- The delay flags are `true` after every batch except the last, which has
none (and no delay precedes the first batch: flags are attached after each
batch only). -/
theorem crawlBatchesDelays (f : String → Option String) (now : String) :
    ∀ (links : List CandidateLink) (v : List String), links ≠ [] →
      (crawlBatches f now links v).map (fun t => t.delayAfter) =
        List.replicate ((crawlBatches f now links v).length - 1) true ++ [false]
  | [], _, h => absurd rfl h
  | [a], v, _ => by simp [crawlBatches, mkTrace_delayAfter]
  | [a, b], v, _ => by simp [crawlBatches, mkTrace_delayAfter]
  | [a, b, c], v, _ => by simp [crawlBatches, mkTrace_delayAfter]
  | a :: b :: c :: x :: xs, v, _ => by
    have ih := crawlBatchesDelays f now (x :: xs)
      ((mkTrace f now v [a, b, c] (!(x :: xs).isEmpty)).visitedAfter) (by simp)
    have hne : (crawlBatches f now (x :: xs)
        ((mkTrace f now v [a, b, c] (!(x :: xs).isEmpty)).visitedAfter)).length ≠ 0 := by
      rw [crawlBatchesLength]
      simp
      omega
    obtain ⟨k, hk⟩ := Nat.exists_eq_succ_of_ne_zero hne
    simp only [crawlBatches, List.map_cons, List.length_cons]
    rw [ih, hk]
    simp [mkTrace_delayAfter, List.replicate_succ]

/-- C5: the crawl processes the discovered sequence in consecutive batches of
3 (the number of batches is the number of 3-slices, concatenating the
batches restores the sequence, and only the final batch may be smaller than
3), with the 1-second delay flag set after every batch except the last and
attached after batches only, never before the first; for a 5-link sequence
this gives 2 batches and exactly one inter-batch delay. -/
theorem crawl_batching_and_delays (f : String → Option String) (now : String)
    (links : List CandidateLink) (v : List String) (h : links ≠ []) :
    (crawlBatches f now links v).length = (links.length + 2) / 3 ∧
    ((crawlBatches f now links v).map (fun t => t.batch)).flatten = links ∧
    (∀ t ∈ crawlBatches f now links v,
        t.batch.length ≤ 3 ∧ (t.delayAfter = true → t.batch.length = 3)) ∧
    (crawlBatches f now links v).map (fun t => t.delayAfter) =
      List.replicate ((crawlBatches f now links v).length - 1) true ++ [false] :=
  ⟨crawlBatchesLength f now links v, crawlBatchesJoin f now links v,
   crawlBatchesFullBatch f now links v, crawlBatchesDelays f now links v h⟩

/-- Five distinct support links, as in the spec's scenario. -/
def links5 : List CandidateLink :=
  [mkCand "https://example.com/help", mkCand "https://example.com/support",
   mkCand "https://example.com/faq", mkCand "https://example.com/contact",
   mkCand "https://example.com/billing"]

/-- C5 witness: the 5-link scenario — the conclusion instantiates to 2
batches (`(5 + 2) / 3 = 2`) whose delay flags are `[true, false]`: exactly
one inter-batch delay. -/
theorem crawl_batching_and_delays_witness :
    links5 ≠ [] ∧
    ((crawlBatches (fun _ => some "html") "t" links5 []).length =
        (links5.length + 2) / 3 ∧
      ((crawlBatches (fun _ => some "html") "t" links5 []).map (fun t => t.batch)).flatten =
        links5 ∧
      (∀ t ∈ crawlBatches (fun _ => some "html") "t" links5 [],
          t.batch.length ≤ 3 ∧ (t.delayAfter = true → t.batch.length = 3)) ∧
      (crawlBatches (fun _ => some "html") "t" links5 []).map (fun t => t.delayAfter) =
        List.replicate
          ((crawlBatches (fun _ => some "html") "t" links5 []).length - 1) true ++
          [false]) :=
  ⟨by decide, crawl_batching_and_delays (fun _ => some "html") "t" links5 [] (by decide)⟩
